import Mathlib

/-!
Verification of the re64 RISC-V emulator sources (src/instruction.rs,
src/main.rs, src/core.rs) against its natural-language specification.

Machine integers are modelled as `Nat` (unsigned, with explicit `% 2 ^ w`
where wrap-around matters) and `Int` (for Rust's signed `i32`/`i64`
immediates).  A raw instruction word (`InstructionBytes(pub u32)` in the
source) is a `Nat` below `2 ^ 32`.  Rust code that panics (`unimplemented!`,
`todo!`) is modelled with `Option`, `none` standing for the process abort.
-/

/-- Reinterpret an unsigned 32-bit value (a `Nat` below `2 ^ 32`) as a
signed two's-complement `i32`, i.e. the semantics of Rust's `as i32` cast
on a `u32` already below `2 ^ 32`. -/
def toInt32 (n : Nat) : Int :=
  if n < 2 ^ 31 then (n : Int) else (n : Int) - 2 ^ 32

/-- Accessor `InstructionBytes::opcode`: `&self.0 & 0x7f`
(src/instruction.rs:37). -/
def InstructionBytes.opcode (w : Nat) : Nat := w &&& 0x7f

/-- Accessor `InstructionBytes::funct3`: `(&self.0 >> 12) & 0x7`
(src/instruction.rs:41). -/
def InstructionBytes.funct3 (w : Nat) : Nat := (w >>> 12) &&& 0x7

/-- The `RFormat` struct (src/instruction.rs:89). -/
structure RFormat where
  funct3 : Nat
  funct7 : Nat
  rs1 : Nat
  rs2 : Nat
  rd : Nat
  opcode : Nat
deriving DecidableEq, Repr

/-- Extractor `impl From<InstructionBytes> for RFormat`
(src/instruction.rs:104). -/
def RFormat.fromBytes (w : Nat) : RFormat :=
  { funct3 := (w >>> 12) &&& 0x7
    funct7 := (w >>> 25) &&& 0x7f
    rs1 := (w >>> 15) &&& 0x1f
    rs2 := (w >>> 20) &&& 0x1f
    rd := (w >>> 7) &&& 0x1f
    opcode := w &&& 0x7f }

/-- The `IFormat` struct (src/instruction.rs:124); `imm` is an `i32`. -/
structure IFormat where
  imm : Int
  funct3 : Nat
  rs1 : Nat
  rd : Nat
  opcode : Nat
deriving DecidableEq, Repr

/-- Extractor `impl From<InstructionBytes> for IFormat`
(src/instruction.rs:137).  The source computes
`uimm = ((instruction.0 >> 20) & 0x7ff) as i32` (the cast is the identity:
the masked value is below `2 ^ 31`), then subtracts `1 << 11` when bit 31
of the word is set. -/
def IFormat.fromBytes (w : Nat) : IFormat :=
  let uimm : Int := ((w >>> 20) &&& 0x7ff : Nat)
  let imm : Int := if w &&& 0x80000000 ≠ 0 then uimm - 2 ^ 11 else uimm
  { imm
    funct3 := InstructionBytes.funct3 w
    rs1 := (w >>> 15) &&& 0x1f
    rd := (w >>> 7) &&& 0x1f
    opcode := InstructionBytes.opcode w }

/-- The `SFormat` struct (src/instruction.rs:203). -/
structure SFormat where
  imm : Int
  rs1 : Nat
  rs2 : Nat
  funct3 : Nat
  opcode : Nat
deriving DecidableEq, Repr

/-- Extractor `impl From<InstructionBytes> for SFormat`
(src/instruction.rs:216). -/
def SFormat.fromBytes (w : Nat) : SFormat :=
  let uimm : Int := (((w >>> 20) &&& 0x7e0) ||| ((w >>> 7) &&& 0x1f) : Nat)
  let imm : Int := if w &&& 0x80000000 ≠ 0 then uimm - 2 ^ 11 else uimm
  { imm
    rs1 := (w >>> 15) &&& 0x1f
    rs2 := (w >>> 20) &&& 0x1f
    funct3 := (w >>> 12) &&& 0x7
    opcode := w &&& 0x7f }

/-- The `BFormat` struct (src/instruction.rs:243). -/
structure BFormat where
  imm : Int
  rs1 : Nat
  rs2 : Nat
  funct3 : Nat
  opcode : Nat
deriving DecidableEq, Repr

/-- Extractor `impl From<InstructionBytes> for BFormat`
(src/instruction.rs:256). -/
def BFormat.fromBytes (w : Nat) : BFormat :=
  let uimm : Int :=
    (((w >>> 20) &&& 0x7e0) ||| ((w >>> 7) &&& 0x1e) ||| ((w &&& 0x80) <<< 4) : Nat)
  let imm : Int := if w &&& 0x80000000 ≠ 0 then uimm - 2 ^ 12 else uimm
  { imm
    rs1 := (w >>> 15) &&& 0x1f
    rs2 := (w >>> 20) &&& 0x1f
    funct3 := (w >>> 12) &&& 0x7
    opcode := w &&& 0x7f }

/-- The `UFormat` struct (src/instruction.rs:286). -/
structure UFormat where
  imm : Int
  rd : Nat
  opcode : Nat
deriving DecidableEq, Repr

/-- Extractor `impl From<InstructionBytes> for UFormat`
(src/instruction.rs:295).  Here the `as i32` cast can genuinely
reinterpret (bit 31 may be set). -/
def UFormat.fromBytes (w : Nat) : UFormat :=
  { imm := toInt32 (w &&& 0xfffff000)
    rd := (w >>> 7) &&& 0x1f
    opcode := w &&& 0x7f }

/-- The `JFormat` struct (src/instruction.rs:312). -/
structure JFormat where
  imm : Int
  rd : Nat
  opcode : Nat
deriving DecidableEq, Repr

/-- Extractor `impl From<InstructionBytes> for JFormat`
(src/instruction.rs:321). -/
def JFormat.fromBytes (w : Nat) : JFormat :=
  let uimm : Int :=
    ((w &&& 0xff000) ||| ((w &&& 0x100000) >>> 9) ||| ((w >>> 20) &&& 0x7fe) : Nat)
  let imm : Int := if w &&& 0x80000000 ≠ 0 then uimm - 2 ^ 20 else uimm
  { imm
    rd := (w >>> 7) &&& 0x1f
    opcode := w &&& 0x7f }

/-- The `Instruction` enum (src/instruction.rs:22): six format variants plus
the recognized-but-inert `NOP` variant carrying the raw word. -/
inductive Instruction where
  | R : RFormat → Instruction
  | I : IFormat → Instruction
  | S : SFormat → Instruction
  | B : BFormat → Instruction
  | U : UFormat → Instruction
  | J : JFormat → Instruction
  | NOP : Nat → Instruction
deriving DecidableEq, Repr

/-- Classifier `impl From<InstructionBytes> for Instruction`
(src/instruction.rs:46).

The source matches on `(opcode, funct3)` with patterns written as
`0110111`, `0010111`, ... .  These literals carry no `0b` prefix, so Rust
reads them as DECIMAL integers (`0110111` is one hundred ten thousand one
hundred eleven); the model spells the literals exactly as the source does,
and Lean reads them as the same decimal values.  The wildcard arm calls
`unimplemented!` (a process abort), modelled as `none`. -/
def instructionFromBytes (w : Nat) : Option Instruction :=
  let opcode := InstructionBytes.opcode w
  let funct3 := InstructionBytes.funct3 w
  if opcode = 0110111 then some (.U (UFormat.fromBytes w))        -- LUI
  else if opcode = 0010111 then some (.U (UFormat.fromBytes w))   -- AUIPC
  else if opcode = 1101111 then some (.J (JFormat.fromBytes w))   -- JAL
  else if opcode = 1100111 then some (.I (IFormat.fromBytes w))   -- JALR
  else if opcode = 1100011 then some (.B (BFormat.fromBytes w))   -- branches
  else if opcode = 0000011 then some (.I (IFormat.fromBytes w))   -- loads
  else if opcode = 0010011 ∧ funct3 = 001 then some (.S (SFormat.fromBytes w))  -- SLLI
  else if opcode = 0010011 ∧ funct3 = 101 then some (.S (SFormat.fromBytes w))  -- SRLI, SRAI
  else if opcode = 0010011 then some (.I (IFormat.fromBytes w))   -- ADDI ...
  else if opcode = 0100011 then some (.S (SFormat.fromBytes w))   -- stores
  else if opcode = 0110011 then some (.R (RFormat.fromBytes w))   -- ADD ...
  else if opcode = 0001111 then some (.NOP w)                     -- FENCE
  else if opcode = 1110011 then some (.NOP w)                     -- system/CSR
  else none                                       -- wildcard: unimplemented!

/-- The `InstructionException` enum (src/instruction.rs:80): declared with
no variants at all, so the type is empty. -/
inductive InstructionException : Type
deriving DecidableEq

/-- The `Hart` struct (src/core.rs:14). -/
structure Hart where
  regs : Fin 32 → Nat
  pc : Nat

/-- Function `Hart::step` (src/core.rs:22).  The source is
`if let Some(instruction) = unimplemented!() { ... }; Ok(())`: the scrutinee
expression is `unimplemented!()`, so every call aborts the process before
doing anything; the match on the instruction and the final `Ok(())` are
dead code.  The abort is modelled as `none`; a completed step would be
`some` of the resulting state. -/
def Hart.step (_h : Hart) : Option (Hart × Unit) := none

/-- Constant `DRAM_SIZE` (src/main.rs:9): `1024 * 1024 * 128`. -/
def DRAM_SIZE : Nat := 1024 * 1024 * 128

/-- The `CPU` struct (src/main.rs:12): 32 general-purpose 64-bit registers
(values kept below `2 ^ 64`), program counter, and the code bytes. -/
structure CPU where
  regs : Fin 32 → Nat
  pc : Nat
  dram : List Nat

/-- Constructor `CPU::new` (src/main.rs:23): all registers zero, then
`regs[2] = DRAM_SIZE` (stack pointer), then the redundant `regs[0] = 0`;
`pc = 0`. -/
def CPU.new (code : List Nat) : CPU :=
  let regs := Function.update (Function.update (fun _ : Fin 32 => 0) 2 DRAM_SIZE) 0 0
  { regs, pc := 0, dram := code }

/-- Function `CPU::fetch` (src/main.rs:40): read 4 bytes at `pc` in
little-endian order.  The source indexes the `Vec` directly (panicking out
of range); all uses below stay in range, out-of-range bytes default to 0
here. -/
def CPU.fetch (cpu : CPU) : Nat :=
  let index := cpu.pc
  cpu.dram.getD index 0 + cpu.dram.getD (index + 1) 0 * 2 ^ 8 +
    cpu.dram.getD (index + 2) 0 * 2 ^ 16 + cpu.dram.getD (index + 3) 0 * 2 ^ 24

/-- The immediate of the `addi` arm of `CPU::execute` (src/main.rs:84):
`((instruction & 0xfff00000) as i32 as i64) >> 20`, an arithmetic right
shift of the sign-extended masked word (`Int`'s `>>>` is arithmetic). -/
def executeAddiImm (instruction : Nat) : Int :=
  toInt32 (instruction &&& 0xfff00000) >>> 20

/-- Function `CPU::execute` (src/main.rs:71).  `self.regs[0] = 0` runs
first, then the match on the opcode: `addi` (0x13) and `add` (0x33) write
to `regs[rd]` with `wrapping_add` (addition modulo `2 ^ 64`; the `as u64`
cast of the `i64` immediate is reduction modulo `2 ^ 64`); any other opcode
only logs. -/
def CPU.execute (cpu : CPU) (instruction : Nat) : CPU :=
  let opcode := instruction &&& 0x7f
  let rd : Fin 32 := ⟨(instruction >>> 7) &&& 0x1f,
    Nat.lt_of_le_of_lt Nat.and_le_right (by norm_num)⟩
  let rs1 : Fin 32 := ⟨(instruction >>> 15) &&& 0x1f,
    Nat.lt_of_le_of_lt Nat.and_le_right (by norm_num)⟩
  let rs2 : Fin 32 := ⟨(instruction >>> 20) &&& 0x1f,
    Nat.lt_of_le_of_lt Nat.and_le_right (by norm_num)⟩
  let regs := Function.update cpu.regs 0 0
  if opcode = 0x13 then
    let imm : Nat := (executeAddiImm instruction % (2 ^ 64 : Int)).toNat
    { cpu with regs := Function.update regs rd ((regs rs1 + imm) % 2 ^ 64) }
  else if opcode = 0x33 then
    { cpu with regs := Function.update regs rd ((regs rs1 + regs rs2) % 2 ^ 64) }
  else
    { cpu with regs := regs }

/-- One iteration of the fetch-decode-execute loop in `main`
(src/main.rs:145): fetch, advance `pc` by 4, execute. -/
def CPU.cycle (cpu : CPU) : CPU :=
  let instruction := cpu.fetch
  let cpu' := { cpu with pc := cpu.pc + 4 }
  cpu'.execute instruction

/-- The two-instruction example program of the spec, as little-endian bytes:
`addi x1, x0, 5` (0x00500093) followed by `add x2, x2, x1` (0x00110133). -/
def exampleProgram : List Nat :=
  [0x93, 0x00, 0x50, 0x00, 0x33, 0x01, 0x11, 0x00]

/-- Full 12-bit I-format immediate field (word bits 31:20), following the
claim's wording: the unsigned value of the immediate field in logical
position. -/
def iFieldValue (w : Nat) : Nat := w / 2 ^ 20 % 2 ^ 12

/-- Full 13-bit B-format immediate field, following the claim's wording:
imm[12] = word bit 31, imm[11] = bit 7, imm[10:5] = bits 30:25,
imm[4:1] = bits 11:8, implicit imm[0] = 0. -/
def bFieldValue (w : Nat) : Nat :=
  w / 2 ^ 31 % 2 * 2 ^ 12 + w / 2 ^ 7 % 2 * 2 ^ 11 +
    w / 2 ^ 25 % 2 ^ 6 * 2 ^ 5 + w / 2 ^ 8 % 2 ^ 4 * 2

/-- Full 21-bit J-format immediate field, following the claim's wording:
imm[20] = word bit 31, imm[19:12] = bits 19:12, imm[11] = bit 20,
imm[10:1] = bits 30:21, implicit imm[0] = 0. -/
def jFieldValue (w : Nat) : Nat :=
  w / 2 ^ 31 % 2 * 2 ^ 20 + w / 2 ^ 12 % 2 ^ 8 * 2 ^ 12 +
    w / 2 ^ 20 % 2 * 2 ^ 11 + w / 2 ^ 21 % 2 ^ 10 * 2

/-- Bits k..k+j-1 of x, extracted by an and-mask, as divide/modulo
arithmetic. -/
theorem and_mask_decomp (x j k : Nat) :
    x &&& (2 ^ j - 1) <<< k = 2 ^ k * (x / 2 ^ k % 2 ^ j) := by
  apply Nat.eq_of_testBit_eq
  intro i
  rw [← Nat.shiftRight_eq_div_pow]
  simp only [Nat.testBit_and, Nat.testBit_shiftLeft, Nat.testBit_two_pow_sub_one,
    Nat.testBit_mul_pow_two, Nat.testBit_mod_two_pow, Nat.testBit_shiftRight]
  by_cases h : k ≤ i
  · have hik : k + (i - k) = i := by omega
    simp [ge_iff_le, h, hik, Bool.and_comm, Bool.and_left_comm]
  · simp [ge_iff_le, h]

/-- A bit singled out by an and-mask is nonzero exactly when the bit is
set. -/
theorem and_two_pow_ne_zero_iff (x k : Nat) :
    x &&& 2 ^ k ≠ 0 ↔ x / 2 ^ k % 2 = 1 := by
  rw [Nat.and_two_pow]
  rcases h : x.testBit k with _ | _ <;>
    simp_all [Nat.testBit_to_div_mod]

/-- The I-format unsigned immediate (bits 30:20) as arithmetic. -/
theorem iuimm_arith (w : Nat) : (w >>> 20) &&& 0x7ff = w / 2 ^ 20 % 2 ^ 11 := by
  have h : ((2 : Nat) ^ 11 - 1) <<< 0 = 0x7ff := by decide
  rw [← h, and_mask_decomp, Nat.shiftRight_eq_div_pow]
  norm_num

/-- The B-format unsigned immediate expression of the source (OR of three
masked pieces) as plain arithmetic on bit fields. -/
theorem buimm_arith (w : Nat) :
    ((w >>> 20) &&& 0x7e0) ||| ((w >>> 7) &&& 0x1e) ||| ((w &&& 0x80) <<< 4) =
      w / 2 ^ 25 % 2 ^ 6 * 2 ^ 5 + w / 2 ^ 8 % 2 ^ 4 * 2 + w / 2 ^ 7 % 2 * 2 ^ 11 := by
  have e1 : ((2 : Nat) ^ 6 - 1) <<< 5 = 0x7e0 := by decide
  have e2 : ((2 : Nat) ^ 4 - 1) <<< 1 = 0x1e := by decide
  have e3 : ((2 : Nat) ^ 1 - 1) <<< 7 = 0x80 := by decide
  have hc1 : (w >>> 20) &&& 0x7e0 = 2 ^ 5 * (w / 2 ^ 25 % 2 ^ 6) := by
    rw [← e1, and_mask_decomp, Nat.shiftRight_eq_div_pow, Nat.div_div_eq_div_mul]
    norm_num
  have hc2 : (w >>> 7) &&& 0x1e = 2 ^ 1 * (w / 2 ^ 8 % 2 ^ 4) := by
    rw [← e2, and_mask_decomp, Nat.shiftRight_eq_div_pow, Nat.div_div_eq_div_mul]
    norm_num
  have hc3 : (w &&& 0x80) <<< 4 = 2 ^ 11 * (w / 2 ^ 7 % 2) := by
    rw [← e3, and_mask_decomp, Nat.shiftLeft_eq]
    ring_nf
  have h12 : ((w >>> 20) &&& 0x7e0) ||| ((w >>> 7) &&& 0x1e) =
      2 ^ 5 * (w / 2 ^ 25 % 2 ^ 6) + 2 ^ 1 * (w / 2 ^ 8 % 2 ^ 4) := by
    rw [hc1, hc2, ← Nat.mul_add_lt_is_or]
    have := Nat.mod_lt (w / 2 ^ 8) (y := 2 ^ 4) (by norm_num)
    omega
  rw [h12, hc3, Nat.lor_comm, ← Nat.mul_add_lt_is_or]
  · ring
  · have h1 := Nat.mod_lt (w / 2 ^ 25) (y := 2 ^ 6) (by norm_num)
    have h2 := Nat.mod_lt (w / 2 ^ 8) (y := 2 ^ 4) (by norm_num)
    omega

/-- The J-format unsigned immediate expression of the source as
arithmetic. -/
theorem juimm_arith (w : Nat) :
    (w &&& 0xff000) ||| ((w &&& 0x100000) >>> 9) ||| ((w >>> 20) &&& 0x7fe) =
      w / 2 ^ 12 % 2 ^ 8 * 2 ^ 12 + w / 2 ^ 20 % 2 * 2 ^ 11 +
        w / 2 ^ 21 % 2 ^ 10 * 2 := by
  have e1 : ((2 : Nat) ^ 8 - 1) <<< 12 = 0xff000 := by decide
  have e2 : ((2 : Nat) ^ 1 - 1) <<< 20 = 0x100000 := by decide
  have e3 : ((2 : Nat) ^ 10 - 1) <<< 1 = 0x7fe := by decide
  have hc1 : w &&& 0xff000 = 2 ^ 12 * (w / 2 ^ 12 % 2 ^ 8) := by
    rw [← e1, and_mask_decomp]
  have hc2 : (w &&& 0x100000) >>> 9 = 2 ^ 11 * (w / 2 ^ 20 % 2) := by
    rw [← e2, and_mask_decomp, Nat.shiftRight_eq_div_pow]
    omega
  have hc3 : (w >>> 20) &&& 0x7fe = 2 ^ 1 * (w / 2 ^ 21 % 2 ^ 10) := by
    rw [← e3, and_mask_decomp, Nat.shiftRight_eq_div_pow, Nat.div_div_eq_div_mul]
    norm_num
  have h12 : (w &&& 0xff000) ||| ((w &&& 0x100000) >>> 9) =
      2 ^ 12 * (w / 2 ^ 12 % 2 ^ 8) + 2 ^ 11 * (w / 2 ^ 20 % 2) := by
    rw [hc1, hc2]
    have h2 := Nat.mod_lt (w / 2 ^ 20) (y := 2) (by norm_num)
    exact (Nat.mul_add_lt_is_or (by omega) _).symm
  have hd : 2 ^ 12 * (w / 2 ^ 12 % 2 ^ 8) + 2 ^ 11 * (w / 2 ^ 20 % 2) =
      2 ^ 11 * (2 * (w / 2 ^ 12 % 2 ^ 8) + w / 2 ^ 20 % 2) := by ring
  have h3 := Nat.mod_lt (w / 2 ^ 21) (y := 2 ^ 10) (by norm_num)
  rw [h12, hc3, hd, ← Nat.mul_add_lt_is_or (by omega)]
  ring

/-- The I-format immediate in terms of the full 12-bit encoded field. -/
theorem iformat_imm_eq_field (w : Nat) :
    (IFormat.fromBytes w).imm =
      if w.testBit 31 then (iFieldValue w : Int) - 2 ^ 12 else (iFieldValue w : Int) := by
  have hI : (IFormat.fromBytes w).imm =
      if w &&& 0x80000000 ≠ 0 then (((w >>> 20) &&& 0x7ff : Nat) : Int) - 2 ^ 11
      else (((w >>> 20) &&& 0x7ff : Nat) : Int) := rfl
  have hp : (0x80000000 : Nat) = 2 ^ 31 := by norm_num
  have hcond : (w &&& 0x80000000 ≠ 0) ↔ w / 2 ^ 31 % 2 = 1 := by
    rw [hp]; exact and_two_pow_ne_zero_iff w 31
  have htb : w.testBit 31 = decide (w / 2 ^ 31 % 2 = 1) := Nat.testBit_to_div_mod
  have harith := iuimm_arith w
  rw [hI]
  unfold iFieldValue
  by_cases hb : w / 2 ^ 31 % 2 = 1
  · rw [if_pos (hcond.mpr hb), if_pos (by simp [htb]; omega), harith]
    push_cast
    omega
  · rw [if_neg (fun h => hb (hcond.mp h)), if_neg (by simp [htb]; omega), harith]
    push_cast
    omega

/-- The B-format immediate in terms of the full 13-bit encoded field. -/
theorem bformat_imm_eq_field (w : Nat) :
    (BFormat.fromBytes w).imm =
      if w.testBit 31 then (bFieldValue w : Int) - 2 ^ 13 else (bFieldValue w : Int) := by
  have hB : (BFormat.fromBytes w).imm =
      if w &&& 0x80000000 ≠ 0 then
        ((((w >>> 20) &&& 0x7e0) ||| ((w >>> 7) &&& 0x1e) ||| ((w &&& 0x80) <<< 4) : Nat) : Int) - 2 ^ 12
      else (((w >>> 20) &&& 0x7e0) ||| ((w >>> 7) &&& 0x1e) ||| ((w &&& 0x80) <<< 4) : Nat) := rfl
  have hp : (0x80000000 : Nat) = 2 ^ 31 := by norm_num
  have hcond : (w &&& 0x80000000 ≠ 0) ↔ w / 2 ^ 31 % 2 = 1 := by
    rw [hp]; exact and_two_pow_ne_zero_iff w 31
  have htb : w.testBit 31 = decide (w / 2 ^ 31 % 2 = 1) := Nat.testBit_to_div_mod
  have harith := buimm_arith w
  rw [hB]
  unfold bFieldValue
  by_cases hb : w / 2 ^ 31 % 2 = 1
  · rw [if_pos (hcond.mpr hb), if_pos (by simp [htb]; omega), harith]
    push_cast
    omega
  · rw [if_neg (fun h => hb (hcond.mp h)), if_neg (by simp [htb]; omega), harith]
    push_cast
    omega

/-- The J-format immediate in terms of the full 21-bit encoded field. -/
theorem jformat_imm_eq_field (w : Nat) :
    (JFormat.fromBytes w).imm =
      if w.testBit 31 then (jFieldValue w : Int) - 2 ^ 21 else (jFieldValue w : Int) := by
  have hJ : (JFormat.fromBytes w).imm =
      if w &&& 0x80000000 ≠ 0 then
        (((w &&& 0xff000) ||| ((w &&& 0x100000) >>> 9) ||| ((w >>> 20) &&& 0x7fe) : Nat) : Int) - 2 ^ 20
      else ((w &&& 0xff000) ||| ((w &&& 0x100000) >>> 9) ||| ((w >>> 20) &&& 0x7fe) : Nat) := rfl
  have hp : (0x80000000 : Nat) = 2 ^ 31 := by norm_num
  have hcond : (w &&& 0x80000000 ≠ 0) ↔ w / 2 ^ 31 % 2 = 1 := by
    rw [hp]; exact and_two_pow_ne_zero_iff w 31
  have htb : w.testBit 31 = decide (w / 2 ^ 31 % 2 = 1) := Nat.testBit_to_div_mod
  have harith := juimm_arith w
  rw [hJ]
  unfold jFieldValue
  by_cases hb : w / 2 ^ 31 % 2 = 1
  · rw [if_pos (hcond.mpr hb), if_pos (by simp [htb]; omega), harith]
    push_cast
    omega
  · rw [if_neg (fun h => hb (hcond.mp h)), if_neg (by simp [htb]; omega), harith]
    push_cast
    omega

/-- Claim C1: the claim says an unrecognized (opcode, funct3) pair makes
decoding report an illegal-instruction error as a value.  In the source the
wildcard arm of the match calls `unimplemented!`, aborting the process
(modelled as `none`), and the `InstructionException` type is empty, so no
error value is even representable.  Shown at opcode 0 (outside the base
table): decoding aborts, and `InstructionException` is uninhabited. -/
theorem decode_unknown_opcode_aborts :
    instructionFromBytes 0 = none ∧ IsEmpty InstructionException :=
  ⟨by decide, ⟨fun e => nomatch e⟩⟩

/-- Claim C2: the claim gives the (opcode, funct3) → format table with binary
opcodes.  The source's match patterns lack the `0b` prefix and are decimal,
so every genuinely assigned base opcode (LUI 0x37, AUIPC 0x17, JAL 0x6F,
JALR 0x67, branches 0x63, loads 0x03, op-imm 0x13, stores 0x23, op 0x33,
FENCE 0x0F, SYSTEM 0x73) falls through to the aborting wildcard, while the
unassigned opcode 0b0001011 = 11 is the only 7-bit value the table accepts
(it hits the decimal pattern `0000011` meant for loads). -/
theorem decode_table_decimal_literals :
    instructionFromBytes 0x37 = none ∧ instructionFromBytes 0x17 = none ∧
    instructionFromBytes 0x6F = none ∧ instructionFromBytes 0x67 = none ∧
    instructionFromBytes 0x63 = none ∧ instructionFromBytes 0x03 = none ∧
    instructionFromBytes 0x13 = none ∧ instructionFromBytes 0x23 = none ∧
    instructionFromBytes 0x33 = none ∧ instructionFromBytes 0x0F = none ∧
    instructionFromBytes 0x73 = none ∧
    instructionFromBytes 0x0B = some (.I (IFormat.fromBytes 0x0B)) := by
  decide

/-- Claim C3: the claim says register 0 reads as 0 after any step, enforced
at the read boundary.  `CPU::execute` only resets `regs[0]` at the START of
the call; executing `addi x0, x0, 5` (word 0x00500013) then leaves 5 stored
in register 0, observable until some later `execute` call. -/
theorem execute_writes_register_zero :
    ((CPU.new []).execute 0x00500013).regs 0 = 5 := by
  decide

/-- Claim C4: for every 32-bit word, each of the I, B, J extractors produces
the unsigned value of its full immediate field (widths 12, 13, 21, assembled
into logical position with the implicit zero low bit for B and J) minus
2 ^ 12, 2 ^ 13, 2 ^ 21 respectively exactly when bit 31 of the word is set,
and the unchanged field value when bit 31 is clear. -/
theorem imm_sign_extension_matches_field (w : Nat) (_hw : w < 2 ^ 32) :
    ((IFormat.fromBytes w).imm =
      if w.testBit 31 then (iFieldValue w : Int) - 2 ^ 12 else (iFieldValue w : Int)) ∧
    ((BFormat.fromBytes w).imm =
      if w.testBit 31 then (bFieldValue w : Int) - 2 ^ 13 else (bFieldValue w : Int)) ∧
    ((JFormat.fromBytes w).imm =
      if w.testBit 31 then (jFieldValue w : Int) - 2 ^ 21 else (jFieldValue w : Int)) :=
  ⟨iformat_imm_eq_field w, bformat_imm_eq_field w, jformat_imm_eq_field w⟩

/-- Claim C4 (witness): the sign-extension property instantiated at the word
0x80000000 (bit 31 set, all immediate fields otherwise zero). -/
theorem imm_sign_extension_matches_field_witness :
    (0x80000000 : Nat) < 2 ^ 32 ∧
    ((IFormat.fromBytes 0x80000000).imm =
      if (0x80000000 : Nat).testBit 31 then (iFieldValue 0x80000000 : Int) - 2 ^ 12
      else (iFieldValue 0x80000000 : Int)) :=
  ⟨by norm_num, (imm_sign_extension_matches_field 0x80000000 (by norm_num)).1⟩

/-- Claim C5: the claim says decoding 0xFFF00293 succeeds with an I-format
result.  The classifier aborts on it (opcode 0x13 = 19 matches no decimal
pattern); the I-format extractor itself, called directly, does produce the
claimed fields (opcode 0b0010011, rs1 = 0, rd = 5, imm = -1). -/
theorem decode_addi_word_aborts :
    instructionFromBytes 0xFFF00293 = none ∧
    IFormat.fromBytes 0xFFF00293 =
      { imm := -1, funct3 := 0, rs1 := 0, rd := 5, opcode := 0x13 } := by
  decide

/-- Claim C6 (counterexample): with the stated program
`addi x1, x0, 5; add x2, x2, x1`, register x2 does NOT hold 5 after two
fetch-decode-execute iterations, because `CPU::new` initializes x2 (the
stack pointer) to `DRAM_SIZE`. -/
theorem two_step_program_x2_not_five :
    ((CPU.new exampleProgram).cycle.cycle).regs 2 ≠ 5 := by
  decide

/-- Claim C6 (amended): after two fetch-decode-execute iterations of
`addi x1, x0, 5; add x2, x2, x1`, register x2 holds
`DRAM_SIZE + 5 = 134217733` (x2 starts at the stack-pointer value
`DRAM_SIZE`, and the second instruction adds x1 = 5 to it) and the program
counter equals 8. -/
theorem two_step_program_final_state :
    ((CPU.new exampleProgram).cycle.cycle).regs 2 = DRAM_SIZE + 5 ∧
    ((CPU.new exampleProgram).cycle.cycle).pc = 8 := by
  constructor
  · decide
  · decide

/-- Claim C7: for every 32-bit word, the immediates produced by the B-format
and J-format extractors have least-significant bit 0. -/
theorem bj_imm_lsb_zero (w : Nat) (_hw : w < 2 ^ 32) :
    (BFormat.fromBytes w).imm % 2 = 0 ∧ (JFormat.fromBytes w).imm % 2 = 0 := by
  have hB : (BFormat.fromBytes w).imm =
      if w &&& 0x80000000 ≠ 0 then
        ((((w >>> 20) &&& 0x7e0) ||| ((w >>> 7) &&& 0x1e) ||| ((w &&& 0x80) <<< 4) : Nat) : Int) - 2 ^ 12
      else (((w >>> 20) &&& 0x7e0) ||| ((w >>> 7) &&& 0x1e) ||| ((w &&& 0x80) <<< 4) : Nat) := rfl
  have hJ : (JFormat.fromBytes w).imm =
      if w &&& 0x80000000 ≠ 0 then
        (((w &&& 0xff000) ||| ((w &&& 0x100000) >>> 9) ||| ((w >>> 20) &&& 0x7fe) : Nat) : Int) - 2 ^ 20
      else ((w &&& 0xff000) ||| ((w &&& 0x100000) >>> 9) ||| ((w >>> 20) &&& 0x7fe) : Nat) := rfl
  constructor
  · rw [hB, buimm_arith]
    split <;> (push_cast; omega)
  · rw [hJ, juimm_arith]
    split <;> (push_cast; omega)

/-- Claim C7 (witness): the even-offset invariant instantiated at the word
0xFEDCBA98. -/
theorem bj_imm_lsb_zero_witness :
    (0xFEDCBA98 : Nat) < 2 ^ 32 ∧
    (BFormat.fromBytes 0xFEDCBA98).imm % 2 = 0 ∧
    (JFormat.fromBytes 0xFEDCBA98).imm % 2 = 0 :=
  ⟨by norm_num, bj_imm_lsb_zero 0xFEDCBA98 (by norm_num)⟩

/-- Claim C8: the claim says every fault kind is representable in the
exception type and `step()` returns faults as values without aborting.  In
the source `InstructionException` has no variants (nothing is representable)
and `Hart::step` evaluates `unimplemented!()` before anything else, so every
call aborts the process (modelled as `none`). -/
theorem hart_step_always_aborts :
    (∀ h : Hart, h.step = none) ∧ IsEmpty InstructionException :=
  ⟨fun _ => rfl, ⟨fun e => nomatch e⟩⟩

/-- Claim C9: for every 32-bit word, the sign-extended immediate of the
simplified executor's `addi` path (arithmetic shift of the masked word)
equals the `imm` field computed by the primary I-format extractor. -/
theorem addi_imm_paths_agree (w : Nat) (_hw : w < 2 ^ 32) :
    executeAddiImm w = (IFormat.fromBytes w).imm := by
  have hmask : w &&& 0xfff00000 = 2 ^ 20 * (w / 2 ^ 20 % 2 ^ 12) := by
    have e : ((2 : Nat) ^ 12 - 1) <<< 20 = 0xfff00000 := by decide
    rw [← e, and_mask_decomp]
  have hI : (IFormat.fromBytes w).imm =
      if w &&& 0x80000000 ≠ 0 then (((w >>> 20) &&& 0x7ff : Nat) : Int) - 2 ^ 11
      else (((w >>> 20) &&& 0x7ff : Nat) : Int) := rfl
  have hp : (0x80000000 : Nat) = 2 ^ 31 := by norm_num
  have hcond : (w &&& 0x80000000 ≠ 0) ↔ w / 2 ^ 31 % 2 = 1 := by
    rw [hp]; exact and_two_pow_ne_zero_iff w 31
  have harith := iuimm_arith w
  have htlt : w / 2 ^ 20 % 2 ^ 12 < 2 ^ 12 := Nat.mod_lt _ (by norm_num)
  unfold executeAddiImm toInt32
  rw [hmask, hI, harith]
  by_cases hcase : 2 ^ 20 * (w / 2 ^ 20 % 2 ^ 12) < 2 ^ 31
  · rw [if_pos hcase]
    have hshift : ((2 ^ 20 * (w / 2 ^ 20 % 2 ^ 12) : Nat) : Int) >>> 20 =
        (((2 ^ 20 * (w / 2 ^ 20 % 2 ^ 12)) >>> 20 : Nat) : Int) := rfl
    rw [hshift, Nat.shiftRight_eq_div_pow, Nat.mul_div_cancel_left _ (by norm_num)]
    by_cases hb : w / 2 ^ 31 % 2 = 1
    · rw [if_pos (hcond.mpr hb)]; push_cast; omega
    · rw [if_neg (fun h => hb (hcond.mp h))]; push_cast; omega
  · rw [if_neg hcase]
    have hneg : ((2 ^ 20 * (w / 2 ^ 20 % 2 ^ 12) : Nat) : Int) - 2 ^ 32 =
        Int.negSucc (2 ^ 32 - 2 ^ 20 * (w / 2 ^ 20 % 2 ^ 12) - 1) := by
      rw [Int.negSucc_eq]; omega
    rw [hneg]
    have hshift : (Int.negSucc (2 ^ 32 - 2 ^ 20 * (w / 2 ^ 20 % 2 ^ 12) - 1)) >>> 20 =
        Int.negSucc ((2 ^ 32 - 2 ^ 20 * (w / 2 ^ 20 % 2 ^ 12) - 1) >>> 20) := rfl
    rw [hshift, Nat.shiftRight_eq_div_pow, Int.negSucc_eq]
    by_cases hb : w / 2 ^ 31 % 2 = 1
    · rw [if_pos (hcond.mpr hb)]; push_cast; omega
    · rw [if_neg (fun h => hb (hcond.mp h))]; push_cast; omega

/-- Claim C9 (witness): the two decode paths agree at the word 0xFFF00293,
where both give -1. -/
theorem addi_imm_paths_agree_witness :
    (0xFFF00293 : Nat) < 2 ^ 32 ∧
    executeAddiImm 0xFFF00293 = (IFormat.fromBytes 0xFFF00293).imm :=
  ⟨by norm_num, addi_imm_paths_agree 0xFFF00293 (by norm_num)⟩

/-- Claim C10: `CPU::new` sets `pc = 0`, register 2 to
`DRAM_SIZE = 134217728` (hence nonzero), and every other register to 0. -/
theorem cpu_new_initial_state (code : List Nat) :
    (CPU.new code).pc = 0 ∧
    (CPU.new code).regs 2 = 134217728 ∧ (CPU.new code).regs 2 ≠ 0 ∧
    ∀ i : Fin 32, i ≠ 2 → (CPU.new code).regs i = 0 := by
  refine ⟨rfl, by simp [CPU.new, Function.update_apply, DRAM_SIZE],
    by simp [CPU.new, Function.update_apply, DRAM_SIZE], ?_⟩
  intro i hi
  simp only [CPU.new, Function.update_apply]
  rcases eq_or_ne i 0 with h0 | h0 <;> simp [h0, hi]

/-- Claim C10 (witness): the initialization facts instantiated at the empty
code image and register index 1. -/
theorem cpu_new_initial_state_witness :
    (CPU.new []).pc = 0 ∧ (CPU.new []).regs 2 = 134217728 ∧
    (CPU.new []).regs 1 = 0 :=
  ⟨(cpu_new_initial_state []).1, (cpu_new_initial_state []).2.1,
    (cpu_new_initial_state []).2.2.2 1 (by decide)⟩
